import Mathlib

/-!
Shallow embedding of the registry data-aggregation layer of the repository:
the TTL cache (`src/services/cacheService.ts`) and the Docker Registry
service (`src/services/registryService.ts`).

JavaScript conventions are made explicit:
* machine numbers that the code only adds are modelled as `Nat`;
* a possibly-`undefined`/`null` field is an `Option`;
* JS truthiness on numbers (`if (x)`) is `x ≠ 0` on a present value;
* a thrown exception is the `Except.error` branch of a result;
* `Date.now()` is an explicit `now : Nat` argument threaded through the
  stateful cache operations.
-/

namespace Dcr

/-- Errors a registry call can raise.  `abortError` models the
`DOMException` named `AbortError` that fetch raises on cancellation;
`apiError` models `RegistryApiError` (message plus HTTP status);
`jsError` models a plain `Error`. -/
inductive JsError where
  | abortError
  | apiError (message : String) (status : Nat)
  | jsError (message : String)
deriving DecidableEq, Repr

/-- `ImageManifest.config` from `types.ts`: the fields the service reads.
`digest` and `size` are `Option` because the runtime JSON may omit them
even though the TS type declares them. -/
structure ManifestConfig where
  digest : Option String
  size : Option Nat
deriving DecidableEq, Repr

/-- One entry of `ImageManifest.layers`. -/
structure ManifestLayer where
  digest : Option String
  size : Option Nat
deriving DecidableEq, Repr

/-- `ImageManifest` restricted to the fields the service functions read
(`config`, `layers`, `size`); the presentational fields (`mediaType`,
`history`, ...) are never consulted by the code under verification. -/
structure Manifest where
  config : Option ManifestConfig
  layers : Option (List ManifestLayer)
  size : Option Nat
deriving DecidableEq, Repr

/-- `DockerImage` from `types.ts`. -/
structure DockerImage where
  name : String
  tags : List String
deriving DecidableEq, Repr

/-! ## TTL cache (`cacheService.ts`) -/

/-- `CacheItem<T>` from `cacheService.ts`. -/
structure CacheItem (V : Type) where
  data : V
  timestamp : Nat
  expiresAt : Nat
deriving DecidableEq, Repr

/-- The `params` record passed to the cache by the one call site that uses
params at all: `calculateCumulativeImageSize` passes
`{ tags: tags.join(','), accountForSharedLayers }`. -/
structure CumulativeParams where
  tags : String
  accountForSharedLayers : Bool
deriving DecidableEq, Repr

/-- `JSON.stringify` escaping of one character inside a JSON string
literal (only the quote and backslash cases can arise from the values the
repository serializes). -/
def jsonEscapeChar (c : Char) : List Char :=
  if c = '"' then ['\\', '"']
  else if c = '\\' then ['\\', '\\']
  else [c]

/-- `JSON.stringify` body of a string value. -/
def jsonEscape (s : String) : String :=
  ⟨s.data.flatMap jsonEscapeChar⟩

/-- `JSON.stringify({ tags: ..., accountForSharedLayers: ... })` with the
object-literal key order the source uses. -/
def jsonStringifyCumulative (p : CumulativeParams) : String :=
  "\x7b\"tags\":\"" ++ jsonEscape p.tags ++ "\",\"accountForSharedLayers\":"
    ++ (if p.accountForSharedLayers then "true" else "false") ++ "\x7d"

/-- `generateKey`: `` `${this.keyPrefix}${url}` `` plus
`` `:${JSON.stringify(params)}` `` when params are given. -/
def generateKey (keyPrefixStr url : String) (params : Option CumulativeParams) : String :=
  keyPrefixStr ++ url ++
    (match params with
     | none => ""
     | some p => ":" ++ jsonStringifyCumulative p)

/-- The JS `Map` backing the cache, as an association list whose `set`
updates an existing key in place and otherwise appends (JS `Map` insertion
semantics; keys stay unique when built through these operations). -/
abbrev CacheMap (V : Type) := List (String × CacheItem V)

def mapGet {V : Type} (m : CacheMap V) (k : String) : Option (CacheItem V) :=
  match m with
  | [] => none
  | (k', v) :: r => if k' = k then some v else mapGet r k

def mapSet {V : Type} (m : CacheMap V) (k : String) (v : CacheItem V) : CacheMap V :=
  match m with
  | [] => [(k, v)]
  | (k', v') :: r => if k' = k then (k', v) :: r else (k', v') :: mapSet r k v

def mapDelete {V : Type} (m : CacheMap V) (k : String) : CacheMap V :=
  match m with
  | [] => []
  | (k', v') :: r => if k' = k then r else (k', v') :: mapDelete r k

/-- `CacheService` state: the map plus the constructor options
(`defaultTTL`, `keyPrefix`; the latter is named `keyPrefixStr` here). -/
structure CacheService (V : Type) where
  cache : CacheMap V
  defaultTTL : Nat
  keyPrefixStr : String
deriving DecidableEq, Repr

namespace CacheService

/-- `get`: returns the stored data if present and unexpired; an expired
entry is deleted and treated as absent.  The mutated service is returned
alongside the result. -/
def get {V : Type} (svc : CacheService V) (url : String)
    (params : Option CumulativeParams) (now : Nat) :
    Option V × CacheService V :=
  match mapGet svc.cache (generateKey svc.keyPrefixStr url params) with
  | none => (none, svc)
  | some item =>
    if now > item.expiresAt then
      (none, { svc with cache := mapDelete svc.cache (generateKey svc.keyPrefixStr url params) })
    else
      (some item.data, svc)

end CacheService

/-- JS `ttl || this.defaultTTL`: `0` and `undefined` are falsy. -/
def ttlOrDefault (ttl : Option Nat) (dflt : Nat) : Nat :=
  match ttl with
  | some t => if t ≠ 0 then t else dflt
  | none => dflt

namespace CacheService

/-- `set`: stores `data` with `expiresAt = now + (ttl || defaultTTL)`. -/
def set {V : Type} (svc : CacheService V) (url : String) (data : V)
    (params : Option CumulativeParams) (ttl : Option Nat) (now : Nat) :
    CacheService V :=
  { svc with
      cache := mapSet svc.cache (generateKey svc.keyPrefixStr url params)
        ⟨data, now, now + ttlOrDefault ttl svc.defaultTTL⟩ }

/-- `remove`: deletes one entry if present. -/
def remove {V : Type} (svc : CacheService V) (url : String)
    (params : Option CumulativeParams) : CacheService V :=
  { svc with cache := mapDelete svc.cache (generateKey svc.keyPrefixStr url params) }

/-- `clear`: drops all entries. -/
def clear {V : Type} (svc : CacheService V) : CacheService V :=
  { svc with cache := [] }

/-- `withCache`, at a value type `Option U` where `none` is the JS `null`.
The TS guard `cachedData !== null` sees `null` both when the entry is
absent or expired and when a stored value is itself `null`, which the
`Option.join` collapse captures.  If `compute` throws nothing is stored.
The final `Bool` reports whether `compute` was invoked. -/
def withCache {U : Type} (svc : CacheService (Option U))
    (compute : Except JsError (Option U)) (url : String)
    (params : Option CumulativeParams) (ttl : Option Nat) (now : Nat) :
    Except JsError (Option U) × CacheService (Option U) × Bool :=
  let (cachedData, svc1) := svc.get url params now
  match cachedData.join with
  | some u => (.ok (some u), svc1, false)
  | none =>
    match compute with
    | .error e => (.error e, svc1, true)
    | .ok data => (.ok data, svc1.set url data params ttl now, true)

end CacheService

/-- The singleton `apiCache` construction (`ttl: 10 minutes`,
`prefix: 'docker-registry:'`), with an empty map, at value type `V`. -/
def apiCacheInit (V : Type) : CacheService V :=
  { cache := [], defaultTTL := 10 * 60 * 1000, keyPrefixStr := "docker-registry:" }

/-! ## Size calculator (`registryService.calculateImageSize`) -/

/-- JS truthiness of a possibly-absent number. -/
def truthyNat (o : Option Nat) : Bool :=
  match o with
  | some n => n ≠ 0
  | none => false

/-- `calculateImageSize`: add `config.size` when truthy; if `layers` is an
array add the layer sizes (`layer.size || 0`); otherwise, when a truthy
direct `size` exists, return it; else return the accumulator.  Total by
construction — the JS function likewise never throws on a well-typed
manifest object with absent fields. -/
def calculateImageSize (m : Manifest) : Nat :=
  let totalSize : Nat := 0
  let totalSize :=
    if truthyNat (m.config.bind ManifestConfig.size) then
      totalSize + (m.config.bind ManifestConfig.size).getD 0
    else totalSize
  match m.layers with
  | some ls => totalSize + ls.foldl (fun sum l => sum + l.size.getD 0) 0
  | none =>
    if truthyNat m.size then m.size.getD 0 else totalSize

/-! ## Aggregation orchestrator (`registryService.fetchAllImages`)

`fetchImageCatalog` and `fetchImageTags` are HTTP calls behind `withCache`;
for the aggregation claims their observable outcome is all that matters,
so `fetchAllImages` is modelled over those outcomes: the catalog result
and a function giving each repository's tag-fetch result.  `aborted`
models `abortSignal?.aborted` at the time the fan-out tasks run. -/

/-- One fan-out task of `fetchAllImages`: abort check, tag fetch, and the
per-repository `catch` that re-raises `AbortError` but converts any other
failure into `{ name: repo, tags: [] }`. -/
def imageTask (aborted : Bool) (tagsOf : String → Except JsError (List String))
    (repo : String) : Except JsError DockerImage :=
  if aborted then .error .abortError
  else
    match tagsOf repo with
    | .ok tags => .ok ⟨repo, tags⟩
    | .error .abortError => .error .abortError
    | .error _ => .ok ⟨repo, []⟩

/-- `Promise.all`: succeeds with all values, or rejects with a rejection.
(The real `Promise.all` rejects with the temporally first rejection; in
`fetchAllImages` every possible rejection is the same `AbortError`, so the
list-order choice is indistinguishable.) -/
def promiseAll {E A : Type} : List (Except E A) → Except E (List A)
  | [] => .ok []
  | .error e :: _ => .error e
  | .ok a :: r => (promiseAll r).map (a :: ·)

/-- `fetchAllImages`: catalog fetch, concurrent per-repository tag
fetches, `Promise.all`; the outer `catch` re-raises every error
unchanged (it only logs), so it is the identity on the error branch. -/
def fetchAllImages (aborted : Bool)
    (catalog : Except JsError (List String))
    (tagsOf : String → Except JsError (List String)) :
    Except JsError (List DockerImage) :=
  match catalog with
  | .error e => .error e
  | .ok repositories => promiseAll (repositories.map (imageTask aborted tagsOf))

/-- The per-repository image an ok run of `fetchAllImages` produces. -/
def imageResult (tagsOf : String → Except JsError (List String))
    (repo : String) : DockerImage :=
  match tagsOf repo with
  | .ok tags => ⟨repo, tags⟩
  | .error _ => ⟨repo, []⟩

/-- Sortedness by repository name ascending, as the spec states it. -/
def imagesSortedByName (l : List DockerImage) : Prop :=
  l.Pairwise (fun a b => a.name ≤ b.name)

/-! ## Cumulative size engine (`calculateCumulativeImageSize`)

The inner compute function is modelled over the per-tag outcomes of
`fetchImageManifest` (`manifestOf`), linearizing the concurrent tasks in
tag-list order; every accumulator update commutes except the
last-writer-wins layer map, for which this is one admissible completion
order. -/

/-- `calculateCumulativeImageSize`'s result record; `tagSizes` is the JS
object as an insertion-ordered association list and `layerDigests` is
`Object.keys` of the layer map. -/
structure CumulativeResult where
  totalSize : Nat
  uniqueSize : Nat
  tagSizes : List (String × Nat)
  layerDigests : List String
deriving DecidableEq, Repr

/-- JS object update `obj[k] = v`: replace in place or append. -/
def upsert (m : List (String × Nat)) (k : String) (v : Nat) : List (String × Nat) :=
  match m with
  | [] => [(k, v)]
  | (k', v') :: r => if k' = k then (k', v) :: r else (k', v') :: upsert r k v

/-- `manifest.layers.forEach(layer => { if (layer.digest && layer.size)
allLayers[layer.digest] = layer.size })`. -/
def recordLayers (ls : List ManifestLayer) (m : List (String × Nat)) :
    List (String × Nat) :=
  ls.foldl
    (fun acc l =>
      match l.digest, l.size with
      | some d, some s => if d ≠ "" ∧ s ≠ 0 then upsert acc d s else acc
      | _, _ => acc)
    m

/-- Accumulator shared by the fan-out tasks. -/
structure CumulAcc where
  tagSizes : List (String × Nat)
  allLayers : List (String × Nat)
  totalSize : Nat
deriving DecidableEq, Repr

/-- One fan-out task of `calculateCumulativeImageSize`: abort check,
manifest fetch, size bookkeeping, layer recording; a non-abort failure
(including a `null` manifest, whose property access throws inside the
`try`) is caught, logged and skipped. -/
def cumulativeTask (flag : Bool)
    (manifestOf : String → Except JsError (Option Manifest))
    (acc : CumulAcc) (tag : String) : Except JsError CumulAcc :=
  match manifestOf tag with
  | .error .abortError => .error .abortError
  | .error _ => .ok acc
  | .ok none => .ok acc
  | .ok (some m) =>
    let size := calculateImageSize m
    let acc := { acc with
                   tagSizes := upsert acc.tagSizes tag size,
                   totalSize := acc.totalSize + size }
    if flag then
      match m.layers with
      | some ls => .ok { acc with allLayers := recordLayers ls acc.allLayers }
      | none => .ok acc
    else
      .ok acc

/-- Sum of the values of a JS object viewed as an association list
(`Object.values(allLayers).reduce((sum, size) => sum + size, 0)`). -/
def sumValues (m : List (String × Nat)) : Nat :=
  (m.map Prod.snd).sum

/-- The compute function of `calculateCumulativeImageSize` (the body
passed to `withCache`), for cancellation state `aborted`, shared-layer
flag `flag` and per-tag manifest outcomes `manifestOf`. -/
def calculateCumulativeCompute (aborted : Bool) (flag : Bool)
    (manifestOf : String → Except JsError (Option Manifest))
    (tags : List String) : Except JsError CumulativeResult :=
  if aborted ∧ tags ≠ [] then .error .abortError
  else
    (tags.foldlM (cumulativeTask flag manifestOf) ⟨[], [], 0⟩).map fun acc =>
      { totalSize := acc.totalSize
        uniqueSize := if flag then sumValues acc.allLayers else acc.totalSize
        tagSizes := acc.tagSizes
        layerDigests := acc.allLayers.map Prod.fst }

/-- All layer digests the compute run records, one occurrence per layer
per fetched manifest (used to state the no-repeated-digest side
condition). -/
def recordedDigestOccurrences
    (manifestOf : String → Except JsError (Option Manifest))
    (tags : List String) : List String :=
  tags.flatMap fun t =>
    match manifestOf t with
    | .ok (some m) =>
      (m.layers.getD []).filterMap fun l =>
        match l.digest, l.size with
        | some d, some s => if d ≠ "" ∧ s ≠ 0 then some d else none
        | _, _ => none
    | _ => []

/-! ## Tag deletion workflow (`registryService.deleteImageTag`)

`deleteImageTag` first resolves a digest through the cached
`fetchImageManifest`, then issues the DELETE request, then clears three
cache keys.  The environment supplies the underlying HTTP outcomes:
`manifestFetch` is what the uncached manifest request would produce
(`.ok none` models a JSON `null` body), `deleteResult` the DELETE
request's outcome (its HTTP status, or a network/abort error). -/

/-- Cacheable registry values; the process-wide `apiCache` stores catalog
and tag lists, manifests and cumulative-size results under one map.
A stored JS `null` is the `none` of the surrounding `Option RegValue`. -/
inductive RegValue where
  | stringsV (xs : List String)
  | manifestV (m : Manifest)
  | cumulativeV (r : CumulativeResult)
deriving DecidableEq, Repr

/-- The registry cache: the `apiCache` singleton's state. -/
abbrev RegCache := CacheService (Option RegValue)

/-- Cache TTL constants from `registryService.ts`, in milliseconds. -/
def CACHE_TTL_TAGS : Nat := 2 * 60 * 1000
def CACHE_TTL_MANIFEST : Nat := 10 * 60 * 1000
def CACHE_TTL_CUMULATIVE : Nat := 15 * 60 * 1000

/-- `fetchImageManifest` as `deleteImageTag` calls it: `withCache` around
the underlying request, keyed by the manifest URL with no params. -/
def fetchImageManifestCached (manifestFetch : Except JsError (Option Manifest))
    (svc : RegCache) (imageName tag : String) (now : Nat) :
    Except JsError (Option RegValue) × RegCache × Bool :=
  svc.withCache (manifestFetch.map (fun om => om.map RegValue.manifestV))
    ("/api/v2/" ++ imageName ++ "/manifests/" ++ tag) none
    (some CACHE_TTL_MANIFEST) now

/-- The TS guard `!manifest || !manifest.config?.digest`, returning the
digest when it passes.  A cached value of a non-manifest shape behaves
like an object without a `config.digest` (property access yields
`undefined`). -/
def manifestConfigDigest (v : Option RegValue) : Option String :=
  match v with
  | some (RegValue.manifestV m) =>
    match m.config with
    | none => none
    | some c =>
      match c.digest with
      | none => none
      | some d => if d = "" then none else some d
  | _ => none

/-- `response.ok`: HTTP status in [200, 300). -/
def responseOk (status : Nat) : Bool :=
  200 ≤ status ∧ status < 300

deriving instance DecidableEq for Except

/-- Environment of one `deleteImageTag` call. -/
structure DeleteEnv where
  manifestFetch : Except JsError (Option Manifest)
  deleteResult : Except JsError Nat
deriving DecidableEq, Repr

/-- The exact message `deleteImageTag` raises on HTTP 405. -/
def msg405 : String :=
  "Registry does not allow deletion. The registry server needs to be configured with REGISTRY_STORAGE_DELETE_ENABLED=true."

/-- `deleteImageTag`: manifest fetch (cached), digest guard, DELETE
request with the 405 special case, then cache invalidation of the three
related keys and `return true`.  The trailing `catch` logs and re-raises,
so it is the identity on errors. -/
def deleteImageTag (env : DeleteEnv) (svc : RegCache)
    (imageName tag : String) (now : Nat) :
    Except JsError Bool × RegCache :=
  let (mRes, svc1, _) := fetchImageManifestCached env.manifestFetch svc imageName tag now
  match mRes with
  | .error e => (.error e, svc1)
  | .ok mv =>
    match manifestConfigDigest mv with
    | none => (.error (.jsError ("Could not find digest for " ++ imageName ++ ":" ++ tag)), svc1)
    | some _ =>
      match env.deleteResult with
      | .error e => (.error e, svc1)
      | .ok status =>
        if ¬ responseOk status then
          if status = 405 then
            (.error (.apiError msg405 status), svc1)
          else
            (.error (.apiError ("Failed to delete " ++ imageName ++ ":" ++ tag) status), svc1)
        else
          let svc2 := svc1.remove ("/api/v2/" ++ imageName ++ "/tags/list") none
          let svc3 := svc2.remove ("/api/v2/" ++ imageName ++ "/manifests/" ++ tag) none
          let svc4 := svc3.remove ("/api/v2/" ++ imageName ++ "/cumulative-size") none
          (.ok true, svc4)

/-! ## Cache-key derivation over logical queries

The repository derives every cache key through `generateKey` from one of
four `(url, params)` shapes: the catalog, a repository's tag list, a
`(repository, tag)` manifest, and a repository's cumulative size keyed by
`{ tags: tags.join(','), accountForSharedLayers }`. -/

/-- `Array.prototype.join(',')`. -/
def joinComma : List String → String
  | [] => ""
  | [x] => x
  | x :: y :: r => x ++ "," ++ joinComma (y :: r)

/-- A logical cached query of the registry service. -/
inductive Query where
  | catalog
  | tags (image : String)
  | manifest (image : String) (tag : String)
  | cumulative (image : String) (tagList : List String) (flag : Bool)
deriving DecidableEq, Repr

/-- The cache key each query produces, exactly as the call sites build it
(`apiCache` prefix `docker-registry:`). -/
def Query.key : Query → String
  | .catalog => generateKey "docker-registry:" "/api/v2/_catalog" none
  | .tags n => generateKey "docker-registry:" ("/api/v2/" ++ n ++ "/tags/list") none
  | .manifest n t =>
    generateKey "docker-registry:" ("/api/v2/" ++ n ++ "/manifests/" ++ t) none
  | .cumulative n ts b =>
    generateKey "docker-registry:" ("/api/v2/" ++ n ++ "/cumulative-size")
      (some ⟨joinComma ts, b⟩)

/-- Image names as the amended claim restricts them: no double quote. -/
def validName (s : String) : Prop :=
  '"' ∉ s.data

/-- Tags as the amended claim restricts them: no double quote, backslash,
slash or comma (Docker tag syntax allows none of these). -/
def validTag (s : String) : Prop :=
  '"' ∉ s.data ∧ '\\' ∉ s.data ∧ '/' ∉ s.data ∧ ',' ∉ s.data

/-- Validity of a query for the amended injectivity claim: restricted
names and tags, and a nonempty tag list for cumulative lookups. -/
def Query.valid : Query → Prop
  | .catalog => True
  | .tags n => validName n
  | .manifest n t => validName n ∧ validTag t
  | .cumulative n ts _ => validName n ∧ ts ≠ [] ∧ ∀ t ∈ ts, validTag t

/-! # Lemmas -/

theorem mapGet_mapSet_self {V : Type} (m : CacheMap V) (k : String) (v : CacheItem V) :
    mapGet (mapSet m k v) k = some v := by
  induction m with
  | nil => simp [mapSet, mapGet]
  | cons hd tl ih =>
    obtain ⟨k', v'⟩ := hd
    by_cases h : k' = k <;> simp [mapSet, mapGet, h, ih]

theorem mapGet_eq_none_of_not_mem {V : Type} {m : CacheMap V} {k : String}
    (h : k ∉ m.map Prod.fst) : mapGet m k = none := by
  induction m with
  | nil => rfl
  | cons hd tl ih =>
    obtain ⟨k', v'⟩ := hd
    simp only [List.map_cons, List.mem_cons] at h
    push_neg at h
    simp [mapGet, Ne.symm h.1, ih h.2]

theorem mapGet_mapDelete_self {V : Type} {m : CacheMap V} {k : String}
    (h : (m.map Prod.fst).Nodup) : mapGet (mapDelete m k) k = none := by
  induction m with
  | nil => rfl
  | cons hd tl ih =>
    obtain ⟨k', v'⟩ := hd
    simp only [List.map_cons, List.nodup_cons] at h
    by_cases hk : k' = k
    · subst hk
      simpa [mapDelete] using mapGet_eq_none_of_not_mem h.1
    · simp [mapDelete, hk, mapGet, ih h.2]

theorem foldl_add_size (ls : List ManifestLayer) (a : Nat) :
    ls.foldl (fun sum l => sum + l.size.getD 0) a
      = a + (ls.map fun l => l.size.getD 0).sum := by
  induction ls generalizing a with
  | nil => simp
  | cons l ls ih => simp [List.foldl_cons, ih]; omega

theorem getD_zero_of_truthyNat_false {o : Option Nat} (h : truthyNat o = false) :
    o.getD 0 = 0 := by
  match o with
  | none => rfl
  | some n =>
    simp only [truthyNat, ne_eq, decide_not, Bool.not_eq_false', decide_eq_true_eq] at h
    simp [h]

/-- `calculateImageSize` in closed form on each branch shape. -/
theorem calculateImageSize_eq (m : Manifest) :
    calculateImageSize m =
      match m.layers with
      | some ls => (m.config.bind ManifestConfig.size).getD 0
          + (ls.map fun l => l.size.getD 0).sum
      | none =>
        if truthyNat m.size then m.size.getD 0
        else (m.config.bind ManifestConfig.size).getD 0 := by
  unfold calculateImageSize
  match hl : m.layers with
  | some ls =>
    cases htr : truthyNat (m.config.bind ManifestConfig.size)
    · simp [htr, foldl_add_size, getD_zero_of_truthyNat_false htr]
    · simp [htr, foldl_add_size]
  | none =>
    cases htr : truthyNat m.size
    · cases htr2 : truthyNat (m.config.bind ManifestConfig.size)
      · simp [htr, htr2, getD_zero_of_truthyNat_false htr2]
      · simp [htr, htr2]
    · simp [htr]

/-! # Claim theorems -/

/-- C6 counterexample: the manifest `{config: {size: 100}, size: 0}` has
a direct `size` field (value `0`) and no `layers` array, yet
`calculateImageSize` returns `100`, not that size unmodified — the code
tests the direct size for JS truthiness, so a present `0` falls through
to the config-sum branch. -/
theorem calculateImageSize_zero_direct_size_cex :
    (Manifest.mk (some ⟨some "cd", some 100⟩) none (some 0)).size = some 0 ∧
    (Manifest.mk (some ⟨some "cd", some 100⟩) none (some 0)).layers = none ∧
    calculateImageSize (Manifest.mk (some ⟨some "cd", some 100⟩) none (some 0)) = 100 ∧
    (100 : Nat) ≠ 0 := by
  refine ⟨rfl, rfl, rfl, by decide⟩

/-- C6 (amended): `calculateImageSize` returns a *nonzero* direct `size`
unmodified when there is no `layers` array; otherwise it returns
`config.size` (absent or zero contributing 0) plus the sum of the layer
sizes with missing layer sizes treated as 0; when `layers` is absent and
the direct size is absent or zero it returns the config contribution.
The function is total, so it never throws on absent fields. -/
theorem calculateImageSize_spec (m : Manifest) :
    (∀ n, m.size = some n → n ≠ 0 → m.layers = none → calculateImageSize m = n) ∧
    (∀ ls, m.layers = some ls →
      calculateImageSize m =
        (m.config.bind ManifestConfig.size).getD 0
          + (ls.map fun l => l.size.getD 0).sum) ∧
    (m.layers = none → m.size = none ∨ m.size = some 0 →
      calculateImageSize m = (m.config.bind ManifestConfig.size).getD 0) := by
  refine ⟨?_, ?_, ?_⟩
  · intro n hn hnz hl
    rw [calculateImageSize_eq, hl, hn]
    simp [truthyNat, hnz]
  · intro ls hl
    rw [calculateImageSize_eq, hl]
  · intro hl hs
    rw [calculateImageSize_eq, hl]
    rcases hs with h | h <;> simp [h, truthyNat]

/-- C6 witness: a manifest with only `size = 42` and no layers yields 42,
through `calculateImageSize_spec`. -/
theorem calculateImageSize_spec_witness :
    calculateImageSize (Manifest.mk none none (some 42)) = 42 :=
  (calculateImageSize_spec (Manifest.mk none none (some 42))).1 42 rfl
    (by decide) rfl

/-- C7: `set` followed by `get` before the TTL elapses returns the stored
value; `get` past `expiresAt` returns absent and evicts the stale entry
(given the JS-`Map` invariant that keys are unique); after `clear`, `get`
returns absent for every key. -/
theorem cache_get_set_clear_spec {V : Type} (svc : CacheService V)
    (hWF : (svc.cache.map Prod.fst).Nodup)
    (url : String) (params : Option CumulativeParams) (data : V)
    (ttl : Option Nat) (tPut tGet tLate : Nat) :
    (tGet ≤ tPut + ttlOrDefault ttl svc.defaultTTL →
      ((svc.set url data params ttl tPut).get url params tGet).1 = some data) ∧
    (∀ item, mapGet svc.cache (generateKey svc.keyPrefixStr url params) = some item →
      tLate > item.expiresAt →
      (svc.get url params tLate).1 = none ∧
      mapGet ((svc.get url params tLate).2).cache
        (generateKey svc.keyPrefixStr url params) = none) ∧
    ((svc.clear.get url params tGet).1 = none) := by
  refine ⟨?_, ?_, ?_⟩
  · intro hle
    unfold CacheService.set CacheService.get
    simp only [mapGet_mapSet_self]
    have : ¬ tGet > tPut + ttlOrDefault ttl svc.defaultTTL := by omega
    simp [this]
  · intro item hitem hlate
    unfold CacheService.get
    simp only [hitem]
    rw [if_pos hlate]
    exact ⟨rfl, mapGet_mapDelete_self hWF⟩
  · unfold CacheService.clear CacheService.get
    simp [mapGet]

/-- C7 witness: a concrete cache holding `7` under `"u"` stored at time 0
with TTL 1000, instantiating `cache_get_set_clear_spec` — the re-stored
value is still readable at time 500, the stale entry is evicted at time
1001, and `clear` empties everything. -/
theorem cache_get_set_clear_spec_witness :
    ((((apiCacheInit Nat).set "u" 7 none (some 1000) 0).set "u" 7 none
        (some 1000) 0).get "u" none 500).1 = some 7 ∧
    ((((apiCacheInit Nat).set "u" 7 none (some 1000) 0).get "u" none 1001).1 = none ∧
      mapGet (((((apiCacheInit Nat).set "u" 7 none (some 1000) 0)).get "u" none
        1001).2).cache (generateKey "docker-registry:" "u" none) = none) ∧
    (((((apiCacheInit Nat).set "u" 7 none (some 1000) 0)).clear.get "u" none 500).1
      = none) := by
  have h := cache_get_set_clear_spec ((apiCacheInit Nat).set "u" 7 none (some 1000) 0)
    (by decide) "u" none 7 (some 1000) 0 500 1001
  exact ⟨h.1 (by decide), h.2.1 ⟨7, 0, 1000⟩ (by decide) (by decide), h.2.2⟩

/-- `withCache` with the destructuring `let` expressed through pair
projections, for rewriting. -/
theorem withCache_eq {U : Type} (svc : CacheService (Option U))
    (compute : Except JsError (Option U)) (url : String)
    (params : Option CumulativeParams) (ttl : Option Nat) (now : Nat) :
    svc.withCache compute url params ttl now =
      match ((svc.get url params now).1).join with
      | some u => (.ok (some u), (svc.get url params now).2, false)
      | none =>
        match compute with
        | .error e => (.error e, (svc.get url params now).2, true)
        | .ok data =>
          (.ok data, ((svc.get url params now).2).set url data params ttl now, true) := by
  rcases hg : svc.get url params now with ⟨a, b⟩
  unfold CacheService.withCache
  rw [hg]

/-- `get` on a cache-miss or live-hit leaves the service unchanged; in
every case the configuration fields survive. -/
theorem get_keyPrefixStr {V : Type} (svc : CacheService V) (url : String)
    (params : Option CumulativeParams) (now : Nat) :
    ((svc.get url params now).2).keyPrefixStr = svc.keyPrefixStr := by
  unfold CacheService.get
  cases mapGet svc.cache (generateKey svc.keyPrefixStr url params)
  · rfl
  · dsimp only
    split <;> rfl

/-- C10: at the cache's public interface a stored `null` is
indistinguishable from absence — a live entry holding `none` is served as
`none`, just like a missing key — so `withCache` whose compute returns
`null` stores the `null` yet invokes compute again on the very next call
with the same key, while for a non-`null` value a second call within the
TTL is served from the cache without invoking compute. -/
theorem withCache_null_recompute {U : Type} (svc : CacheService (Option U))
    (urlA urlC : String) (params : Option CumulativeParams) (ttl : Option Nat)
    (t1 t2 : Nat) (u : U) :
    (∀ item, mapGet svc.cache (generateKey svc.keyPrefixStr urlA params) = some item →
      item.data = none → ¬ t1 > item.expiresAt →
      ((svc.get urlA params t1).1).join = none ∧
      ((svc.withCache (.ok none) urlA params ttl t1).2.2 = true)) ∧
    (((svc.get urlA params t1).1).join = none →
      (svc.withCache (.ok none) urlA params ttl t1).1 = .ok none ∧
      (svc.withCache (.ok none) urlA params ttl t1).2.2 = true ∧
      ((svc.withCache (.ok none) urlA params ttl t1).2.1.withCache (.ok none)
        urlA params ttl t2).2.2 = true) ∧
    (mapGet svc.cache (generateKey svc.keyPrefixStr urlC params) = none →
      ¬ t2 > t1 + ttlOrDefault ttl svc.defaultTTL →
      ((svc.withCache (.ok (some u)) urlC params ttl t1).2.1.withCache
          (.ok (some u)) urlC params ttl t2)
        = (.ok (some u), (svc.withCache (.ok (some u)) urlC params ttl t1).2.1,
           false)) := by
  have hsecond : ∀ (S : CacheService (Option U)),
      ((S.set urlA none params ttl t1).withCache (.ok none) urlA params ttl t2).2.2
        = true := by
    intro S
    rw [withCache_eq]
    have hstored : ((S.set urlA none params ttl t1).get urlA params t2).1.join
        = none := by
      unfold CacheService.get CacheService.set
      dsimp only
      rw [mapGet_mapSet_self]
      dsimp only
      split <;> rfl
    rw [hstored]
  refine ⟨?_, ?_, ?_⟩
  · intro item hitem hdata hlive
    have hget : ((svc.get urlA params t1).1).join = none := by
      unfold CacheService.get
      simp only [hitem]
      rw [if_neg hlive]
      simp [hdata]
    refine ⟨hget, ?_⟩
    rw [withCache_eq, hget]
  · intro hmiss
    rw [withCache_eq, hmiss]
    refine ⟨rfl, rfl, ?_⟩
    exact hsecond _
  · intro hmiss hlive
    have hget1 : svc.get urlC params t1 = (none, svc) := by
      unfold CacheService.get
      rw [hmiss]
    have h1 : (svc.withCache (.ok (some u)) urlC params ttl t1).2.1
        = svc.set urlC (some u) params ttl t1 := by
      rw [withCache_eq, hget1]
      rfl
    rw [h1, withCache_eq]
    have hget2 : (svc.set urlC (some u) params ttl t1).get urlC params t2
        = (some (some u), svc.set urlC (some u) params ttl t1) := by
      unfold CacheService.get CacheService.set
      dsimp only
      rw [mapGet_mapSet_self]
      dsimp only
      rw [if_neg hlive]
    rw [hget2]
    rfl

/-- C10 witness: a cache holding a live `null` under `"a"` and nothing
under `"c"`, instantiating `withCache_null_recompute` at times 500/600
with TTL 1000 and value 5. -/
theorem withCache_null_recompute_witness :
    ((((apiCacheInit (Option Nat)).set "a" none none (some 1000) 0).withCache
        (.ok none) "a" none (some 1000) 500).1 = .ok none) ∧
    (((((apiCacheInit (Option Nat)).set "a" none none (some 1000) 0).withCache
        (.ok none) "a" none (some 1000) 500).2.1.withCache (.ok none) "a" none
        (some 1000) 600).2.2 = true) ∧
    (((((apiCacheInit (Option Nat)).set "a" none none (some 1000) 0).withCache
        (.ok (some 5)) "c" none (some 1000) 500).2.1.withCache (.ok (some 5))
        "c" none (some 1000) 600)
      = (.ok (some 5), ((((apiCacheInit (Option Nat)).set "a" none none
          (some 1000) 0)).withCache (.ok (some 5)) "c" none (some 1000)
          500).2.1, false)) := by
  have h := withCache_null_recompute
    ((apiCacheInit (Option Nat)).set "a" none none (some 1000) 0)
    "a" "c" none (some 1000) 500 600 5
  exact ⟨(h.2.1 (by decide)).1, (h.2.1 (by decide)).2.2, h.2.2 (by decide) (by decide)⟩

theorem imageResult_name (tagsOf : String → Except JsError (List String))
    (r : String) : (imageResult tagsOf r).name = r := by
  unfold imageResult
  cases tagsOf r <;> rfl

theorem promiseAll_map_eq (tagsOf : String → Except JsError (List String)) :
    ∀ (repos : List String), (∀ r ∈ repos, tagsOf r ≠ .error .abortError) →
      promiseAll (repos.map (imageTask false tagsOf))
        = .ok (repos.map (imageResult tagsOf)) := by
  intro repos
  induction repos with
  | nil => intro _; rfl
  | cons r rs ih =>
    intro h
    have ih' := ih (fun x hx => h x (List.mem_cons_of_mem _ hx))
    have hr := h r (List.mem_cons_self r rs)
    cases e : tagsOf r with
    | ok ts =>
      simp [imageTask, promiseAll, e, ih', imageResult, Except.map]
    | error err =>
      cases err with
      | abortError => exact absurd e hr
      | apiError msg status =>
        simp [imageTask, promiseAll, e, ih', imageResult, Except.map]
      | jsError msg =>
        simp [imageTask, promiseAll, e, ih', imageResult, Except.map]

theorem fetchAllImages_ok_eq (repos : List String)
    (tagsOf : String → Except JsError (List String))
    (h : ∀ r ∈ repos, tagsOf r ≠ .error .abortError) :
    fetchAllImages false (.ok repos) tagsOf = .ok (repos.map (imageResult tagsOf)) :=
  promiseAll_map_eq tagsOf repos h

/-- C1: when the catalog fetch succeeds, the fan-out is not cancelled,
and no repository's tag fetch fails with the abort error, `fetchAllImages`
succeeds, returning one image per catalog repository; a repository whose
tag fetch failed (for any non-cancellation reason) is still present, with
an empty tag list — the failure is only logged, never raised. -/
theorem fetchAllImages_isolates_tag_failures (repos : List String)
    (tagsOf : String → Except JsError (List String))
    (h : ∀ r ∈ repos, tagsOf r ≠ .error .abortError) :
    fetchAllImages false (.ok repos) tagsOf
      = .ok (repos.map (imageResult tagsOf)) ∧
    ∀ r ∈ repos, ∀ e, tagsOf r = .error e →
      DockerImage.mk r [] ∈ repos.map (imageResult tagsOf) := by
  refine ⟨fetchAllImages_ok_eq repos tagsOf h, ?_⟩
  intro r hr e he
  have hres : imageResult tagsOf r = ⟨r, []⟩ := by
    simp [imageResult, he]
  exact hres ▸ List.mem_map_of_mem _ hr

/-- C1 witness: catalog `["a","b"]` where the tag fetch for `"b"` throws
a non-cancellation error yields `[{a, ["1"]}, {b, []}]` without raising. -/
theorem fetchAllImages_isolates_tag_failures_witness :
    fetchAllImages false (.ok ["a", "b"])
      (fun r => if r = "a" then .ok ["1"] else .error (.jsError "boom"))
      = .ok [⟨"a", ["1"]⟩, ⟨"b", []⟩] := by
  have h := fetchAllImages_isolates_tag_failures ["a", "b"]
    (fun r => if r = "a" then .ok ["1"] else .error (.jsError "boom"))
    (by decide)
  exact h.1.trans (by decide)

/-- C2: a cancellation observed before the per-repository sub-fetches run
makes every fan-out task throw `AbortError`, so the aggregate call fails
with the abort error instead of returning a partial list; a catalog fetch
that itself aborted propagates the same way. -/
theorem fetchAllImages_aborted_cancels (repos : List String)
    (tagsOf : String → Except JsError (List String)) (hne : repos ≠ []) :
    fetchAllImages true (.ok repos) tagsOf = .error .abortError ∧
    ∀ aborted, fetchAllImages aborted (.error .abortError) tagsOf
      = .error .abortError := by
  constructor
  · cases repos with
    | nil => exact absurd rfl hne
    | cons r rs => rfl
  · intro aborted
    rfl

/-- C2 witness: `fetchAllImages_aborted_cancels` at catalog `["a"]`. -/
theorem fetchAllImages_aborted_cancels_witness :
    fetchAllImages true (.ok ["a"]) (fun _ => .ok []) = .error .abortError :=
  (fetchAllImages_aborted_cancels ["a"] (fun _ => .ok []) (by decide)).1

/-- C8 counterexample: `fetchAllImages` does not sort — with catalog
`["b","a"]` and every tag fetch succeeding, the result keeps catalog
order and is not sorted by name ascending. -/
theorem fetchAllImages_not_sorted_cex :
    fetchAllImages false (.ok ["b", "a"]) (fun _ => .ok [])
      = .ok [⟨"b", []⟩, ⟨"a", []⟩] ∧
    ¬ imagesSortedByName [⟨"b", []⟩, ⟨"a", []⟩] := by
  constructor
  · rfl
  · intro hs
    unfold imagesSortedByName at hs
    rcases List.pairwise_cons.mp hs with ⟨h1, _⟩
    have hle : ("b" : String) ≤ "a" := h1 ⟨"a", []⟩ (by simp)
    rw [String.le_iff_toList_le] at hle
    exact absurd hle (by decide)

/-- C8 (amended): the image list returned by `fetchAllImages` is in
catalog order — its names are exactly the catalog — so it is sorted by
repository name ascending precisely when the catalog itself is. -/
theorem fetchAllImages_preserves_catalog_order (repos : List String)
    (tagsOf : String → Except JsError (List String))
    (h : ∀ r ∈ repos, tagsOf r ≠ .error .abortError) :
    fetchAllImages false (.ok repos) tagsOf
      = .ok (repos.map (imageResult tagsOf)) ∧
    (repos.map (imageResult tagsOf)).map DockerImage.name = repos ∧
    (repos.Pairwise (· ≤ ·) → imagesSortedByName (repos.map (imageResult tagsOf))) := by
  refine ⟨fetchAllImages_ok_eq repos tagsOf h, ?_, ?_⟩
  · rw [List.map_map]
    have : ∀ r ∈ repos, (DockerImage.name ∘ imageResult tagsOf) r = r := by
      intro r _
      exact imageResult_name tagsOf r
    rw [List.map_congr_left this]
    exact List.map_id' repos
  · intro hsorted
    unfold imagesSortedByName
    rw [List.pairwise_map]
    refine hsorted.imp ?_
    intro a b hab
    rw [imageResult_name, imageResult_name]
    exact hab

/-- C8 amended witness: with the already-sorted catalog `["a","b"]` the
result of `fetchAllImages` has names `["a","b"]` and is sorted. -/
theorem fetchAllImages_preserves_catalog_order_witness :
    ((["a", "b"] : List String).map (imageResult (fun _ => .ok []))).map
      DockerImage.name = ["a", "b"] ∧
    imagesSortedByName ((["a", "b"] : List String).map (imageResult (fun _ => .ok []))) := by
  have hab : ("a" : String) ≤ "b" := by
    rw [String.le_iff_toList_le]
    decide
  have hsor : (["a", "b"] : List String).Pairwise (· ≤ ·) := by
    refine List.Pairwise.cons ?_ (List.Pairwise.cons ?_ List.Pairwise.nil)
    · intro b hb
      rw [List.mem_singleton] at hb
      subst hb
      exact hab
    · intro b hb
      exact absurd hb (List.not_mem_nil b)
  have h := fetchAllImages_preserves_catalog_order ["a", "b"] (fun _ => .ok [])
    (by decide)
  exact ⟨h.2.1, h.2.2 hsor⟩

/-- `deleteImageTag` with its destructuring `let` expressed through pair
projections, for rewriting. -/
theorem deleteImageTag_eq (env : DeleteEnv) (svc : RegCache)
    (img tag : String) (now : Nat) :
    deleteImageTag env svc img tag now =
      match (fetchImageManifestCached env.manifestFetch svc img tag now).1 with
      | .error e =>
        (.error e, (fetchImageManifestCached env.manifestFetch svc img tag now).2.1)
      | .ok mv =>
        match manifestConfigDigest mv with
        | none =>
          (.error (.jsError ("Could not find digest for " ++ img ++ ":" ++ tag)),
           (fetchImageManifestCached env.manifestFetch svc img tag now).2.1)
        | some _ =>
          match env.deleteResult with
          | .error e =>
            (.error e, (fetchImageManifestCached env.manifestFetch svc img tag now).2.1)
          | .ok status =>
            if ¬ responseOk status then
              if status = 405 then
                (.error (.apiError msg405 status),
                 (fetchImageManifestCached env.manifestFetch svc img tag now).2.1)
              else
                (.error (.apiError ("Failed to delete " ++ img ++ ":" ++ tag) status),
                 (fetchImageManifestCached env.manifestFetch svc img tag now).2.1)
            else
              (.ok true,
               ((((fetchImageManifestCached env.manifestFetch svc img tag
                  now).2.1.remove ("/api/v2/" ++ img ++ "/tags/list")
                  none).remove ("/api/v2/" ++ img ++ "/manifests/" ++ tag)
                  none).remove ("/api/v2/" ++ img ++ "/cumulative-size") none)) := by
  rcases hg : fetchImageManifestCached env.manifestFetch svc img tag now with ⟨a, b, c⟩
  unfold deleteImageTag
  rw [hg]

/-- C3 counterexample: the repository's only deletion operation,
`deleteImageTag`, takes no `forceRemove` flag; at a concrete environment
whose manifest fetch fails, every call fails and performs no cache
invalidation, so no call mode exhibits the claimed `forceRemove=true`
behavior (success and invalidation under the same failure). -/
theorem deleteImageTag_no_force_mode_cex :
    deleteImageTag ⟨.error (.apiError "manifest fetch failed" 500), .ok 202⟩
        (apiCacheInit (Option RegValue)) "r" "t" 0
      = (.error (.apiError "manifest fetch failed" 500),
         apiCacheInit (Option RegValue)) := by
  rfl

/-- C3 (amended): `deleteImageTag` takes no `forceRemove` flag; for every
repository and tag, a manifest-fetch failure or a delete-request failure
fails the whole operation, surfacing the underlying error, with HTTP 405
distinguished by the specific actionable message; cache invalidation
happens only on the success path. -/
theorem deleteImageTag_failure_policy (env : DeleteEnv) (svc : RegCache)
    (img tag : String) (now : Nat) :
    (∀ e, (fetchImageManifestCached env.manifestFetch svc img tag now).1 = .error e →
      deleteImageTag env svc img tag now
        = (.error e, (fetchImageManifestCached env.manifestFetch svc img tag now).2.1)) ∧
    (∀ mv, (fetchImageManifestCached env.manifestFetch svc img tag now).1 = .ok mv →
      (manifestConfigDigest mv).isSome = true → env.deleteResult = .ok 405 →
      deleteImageTag env svc img tag now
        = (.error (.apiError msg405 405),
           (fetchImageManifestCached env.manifestFetch svc img tag now).2.1)) ∧
    (∀ mv s, (fetchImageManifestCached env.manifestFetch svc img tag now).1 = .ok mv →
      (manifestConfigDigest mv).isSome = true → env.deleteResult = .ok s →
      responseOk s = false → s ≠ 405 →
      deleteImageTag env svc img tag now
        = (.error (.apiError ("Failed to delete " ++ img ++ ":" ++ tag) s),
           (fetchImageManifestCached env.manifestFetch svc img tag now).2.1)) ∧
    (∀ mv s, (fetchImageManifestCached env.manifestFetch svc img tag now).1 = .ok mv →
      (manifestConfigDigest mv).isSome = true → env.deleteResult = .ok s →
      responseOk s = true →
      deleteImageTag env svc img tag now
        = (.ok true,
           ((((fetchImageManifestCached env.manifestFetch svc img tag
              now).2.1.remove ("/api/v2/" ++ img ++ "/tags/list")
              none).remove ("/api/v2/" ++ img ++ "/manifests/" ++ tag)
              none).remove ("/api/v2/" ++ img ++ "/cumulative-size") none))) := by
  refine ⟨?_, ?_, ?_, ?_⟩
  · intro e he
    rw [deleteImageTag_eq, he]
  · intro mv hmv hdig hdel
    obtain ⟨d, hd⟩ := Option.isSome_iff_exists.mp hdig
    rw [deleteImageTag_eq, hmv]
    dsimp only
    rw [hd, hdel]
    have h405 : responseOk 405 = false := by decide
    simp [h405]
  · intro mv s hmv hdig hdel hnotok hne
    obtain ⟨d, hd⟩ := Option.isSome_iff_exists.mp hdig
    rw [deleteImageTag_eq, hmv]
    dsimp only
    rw [hd, hdel]
    simp [hnotok, hne]
  · intro mv s hmv hdig hdel hok
    obtain ⟨d, hd⟩ := Option.isSome_iff_exists.mp hdig
    rw [deleteImageTag_eq, hmv]
    dsimp only
    rw [hd, hdel]
    simp [hok]

/-- C3 amended witness: a delete rejected with HTTP 405 surfaces the
specific deletion-disabled message, through `deleteImageTag_failure_policy`. -/
theorem deleteImageTag_failure_policy_witness :
    (deleteImageTag
        ⟨.ok (some ⟨some ⟨some "sha256:d", some 1⟩, none, none⟩), .ok 405⟩
        (apiCacheInit (Option RegValue)) "img" "t" 0).1
      = .error (.apiError msg405 405) := by
  have h := (deleteImageTag_failure_policy
      ⟨.ok (some ⟨some ⟨some "sha256:d", some 1⟩, none, none⟩), .ok 405⟩
      (apiCacheInit (Option RegValue)) "img" "t" 0).2.1
      (some (.manifestV ⟨some ⟨some "sha256:d", some 1⟩, none, none⟩))
      rfl (by decide) rfl
  rw [h]

/-- C4: the failing input.  A cumulative-size result is cached under
`/api/v2/img/cumulative-size` *with* params `{tags:"1,2",
accountForSharedLayers:true}` — the only form in which the code ever
stores one — and `deleteImageTag` succeeds for `("img","1")`.  The
invalidation step removes the cumulative key *without* params, a
different string key, so the stored cumulative entry survives and a
subsequent cache `get` still returns it, contradicting the spec and the
code's own `Clear related caches` intent. -/
theorem deleteImageTag_misses_cumulative_entry :
    (deleteImageTag ⟨.ok (some ⟨some ⟨some "sha256:d", some 1⟩, none, none⟩), .ok 202⟩
        ((apiCacheInit (Option RegValue)).set "/api/v2/img/cumulative-size"
          (some (.cumulativeV ⟨1200, 700, [("1", 600), ("2", 600)], ["s", "u1", "u2"]⟩))
          (some ⟨"1,2", true⟩) (some CACHE_TTL_CUMULATIVE) 0)
        "img" "1" 1).1 = .ok true ∧
    (((deleteImageTag ⟨.ok (some ⟨some ⟨some "sha256:d", some 1⟩, none, none⟩), .ok 202⟩
        ((apiCacheInit (Option RegValue)).set "/api/v2/img/cumulative-size"
          (some (.cumulativeV ⟨1200, 700, [("1", 600), ("2", 600)], ["s", "u1", "u2"]⟩))
          (some ⟨"1,2", true⟩) (some CACHE_TTL_CUMULATIVE) 0)
        "img" "1" 1).2).get "/api/v2/img/cumulative-size" (some ⟨"1,2", true⟩) 1).1
      = some (some (.cumulativeV ⟨1200, 700, [("1", 600), ("2", 600)], ["s", "u1", "u2"]⟩)) := by
  constructor
  · rfl
  · rfl

theorem sumValues_cons (k : String) (v : Nat) (m : List (String × Nat)) :
    sumValues ((k, v) :: m) = v + sumValues m := by
  simp [sumValues]

theorem sumValues_upsert (m : List (String × Nat)) (d : String) (s : Nat) :
    sumValues (upsert m d s) ≤ sumValues m + s := by
  induction m with
  | nil => simp [upsert, sumValues]
  | cons hd tl ih =>
    obtain ⟨k, v⟩ := hd
    by_cases h : k = d
    · simp only [upsert, if_pos h, sumValues_cons]
      omega
    · simp only [upsert, if_neg h, sumValues_cons]
      omega

theorem recordLayers_sum_le (ls : List ManifestLayer) (m : List (String × Nat)) :
    sumValues (recordLayers ls m)
      ≤ sumValues m + (ls.map fun l => l.size.getD 0).sum := by
  induction ls generalizing m with
  | nil => simp [recordLayers]
  | cons l ls ih =>
    have hstep : recordLayers (l :: ls) m
        = recordLayers ls
            (match l.digest, l.size with
             | some d, some s => if d ≠ "" ∧ s ≠ 0 then upsert m d s else m
             | _, _ => m) := by
      rfl
    rw [hstep, List.map_cons, List.sum_cons]
    have hone : sumValues
        (match l.digest, l.size with
         | some d, some s => if d ≠ "" ∧ s ≠ 0 then upsert m d s else m
         | _, _ => m) ≤ sumValues m + l.size.getD 0 := by
      match hld : l.digest, hls : l.size with
      | some d, some s =>
        dsimp only
        by_cases hc : d ≠ "" ∧ s ≠ 0
        · rw [if_pos hc]
          have := sumValues_upsert m d s
          simp only [Option.getD_some]
          omega
        · rw [if_neg hc]
          simp
      | some d, none => simp
      | none, some s => simp
      | none, none => simp
    calc sumValues (recordLayers ls _)
        ≤ sumValues _ + (ls.map fun l => l.size.getD 0).sum := ih _
      _ ≤ sumValues m + l.size.getD 0 + (ls.map fun l => l.size.getD 0).sum := by omega
      _ = sumValues m + (l.size.getD 0 + (ls.map fun l => l.size.getD 0).sum) := by omega

theorem layersSum_le_calculateImageSize (m : Manifest) (ls : List ManifestLayer)
    (h : m.layers = some ls) :
    (ls.map fun l => l.size.getD 0).sum ≤ calculateImageSize m := by
  rw [calculateImageSize_eq, h]
  dsimp only
  omega

/-- One fan-out step of the cumulative computation preserves the bound
of the deduplicated layer map's total by the running raw total. -/
theorem cumulativeTask_inv (mOf : String → Except JsError (Option Manifest))
    (acc acc' : CumulAcc) (tag : String)
    (h : cumulativeTask true mOf acc tag = .ok acc')
    (hin : sumValues acc.allLayers ≤ acc.totalSize) :
    sumValues acc'.allLayers ≤ acc'.totalSize := by
  unfold cumulativeTask at h
  cases e : mOf tag with
  | error err =>
    cases err with
    | abortError => rw [e] at h; exact absurd h (by simp)
    | apiError msg status =>
      rw [e] at h
      cases h
      exact hin
    | jsError msg =>
      rw [e] at h
      cases h
      exact hin
  | ok om =>
    cases om with
    | none =>
      rw [e] at h
      cases h
      exact hin
    | some mf =>
      rw [e] at h
      dsimp only at h
      cases hl : mf.layers with
      | some ls =>
        rw [hl] at h
        cases h
        dsimp only
        calc sumValues (recordLayers ls acc.allLayers)
            ≤ sumValues acc.allLayers + (ls.map fun l => l.size.getD 0).sum :=
              recordLayers_sum_le ls acc.allLayers
          _ ≤ acc.totalSize + calculateImageSize mf := by
              have := layersSum_le_calculateImageSize mf ls hl
              omega
      | none =>
        rw [hl] at h
        cases h
        dsimp only
        omega

theorem foldlM_cumulative_inv (mOf : String → Except JsError (Option Manifest)) :
    ∀ (tags : List String) (acc acc' : CumulAcc),
      List.foldlM (cumulativeTask true mOf) acc tags = .ok acc' →
      sumValues acc.allLayers ≤ acc.totalSize →
      sumValues acc'.allLayers ≤ acc'.totalSize := by
  intro tags
  induction tags with
  | nil =>
    intro acc acc' h hin
    cases h
    exact hin
  | cons t ts ih =>
    intro acc acc' h hin
    rw [List.foldlM_cons] at h
    cases e : cumulativeTask true mOf acc t with
    | error err =>
      rw [e] at h
      exact absurd h (by simp [Bind.bind, Except.bind])
    | ok acc1 =>
      rw [e] at h
      exact ih acc1 acc' h (cumulativeTask_inv mOf acc acc1 t e hin)

/-- With shared-layer accounting off, no fan-out step touches the layer
map. -/
theorem cumulativeTask_false_allLayers
    (mOf : String → Except JsError (Option Manifest))
    (acc acc' : CumulAcc) (tag : String)
    (h : cumulativeTask false mOf acc tag = .ok acc') :
    acc'.allLayers = acc.allLayers := by
  unfold cumulativeTask at h
  cases e : mOf tag with
  | error err =>
    cases err with
    | abortError => rw [e] at h; exact absurd h (by simp)
    | apiError msg status => rw [e] at h; cases h; rfl
    | jsError msg => rw [e] at h; cases h; rfl
  | ok om =>
    cases om with
    | none => rw [e] at h; cases h; rfl
    | some mf =>
      rw [e] at h
      dsimp only at h
      cases h
      rfl

theorem foldlM_false_allLayers (mOf : String → Except JsError (Option Manifest)) :
    ∀ (tags : List String) (acc acc' : CumulAcc),
      List.foldlM (cumulativeTask false mOf) acc tags = .ok acc' →
      acc'.allLayers = acc.allLayers := by
  intro tags
  induction tags with
  | nil =>
    intro acc acc' h
    cases h
    rfl
  | cons t ts ih =>
    intro acc acc' h
    rw [List.foldlM_cons] at h
    cases e : cumulativeTask false mOf acc t with
    | error err =>
      rw [e] at h
      exact absurd h (by simp [Bind.bind, Except.bind])
    | ok acc1 =>
      rw [e] at h
      rw [ih acc1 acc' h, cumulativeTask_false_allLayers mOf acc acc1 t e]

/-- C5 counterexample: with shared-layer accounting on and *no* repeated
layer digest (a single tag, a single layer), `uniqueSize` (200) is
strictly below `totalSize` (300), because the config size counts toward
`totalSize` but never toward `uniqueSize` — the claimed equality in the
no-repeat case fails. -/
theorem cumulative_no_repeat_unequal_cex :
    calculateCumulativeCompute false true
        (fun _ => .ok (some ⟨some ⟨some "cd", some 100⟩, some [⟨some "d", some 200⟩], none⟩))
        ["t"]
      = .ok ⟨300, 200, [("t", 300)], ["d"]⟩ ∧
    (recordedDigestOccurrences
        (fun _ => .ok (some ⟨some ⟨some "cd", some 100⟩, some [⟨some "d", some 200⟩], none⟩))
        ["t"]).Nodup ∧
    (200 : Nat) ≠ 300 := by
  refine ⟨by decide, by decide, by decide⟩

/-- C5 (amended): whenever shared-layer accounting is enabled,
`uniqueSize ≤ totalSize` — with or without repeated digests; equality is
not guaranteed in the no-repeat case because config sizes and
direct-size-only manifests contribute to `totalSize` only.  With the
accounting disabled, `uniqueSize = totalSize` and `layerDigests` is
empty. -/
theorem cumulative_uniqueSize_bounds (aborted flag : Bool)
    (mOf : String → Except JsError (Option Manifest)) (tags : List String)
    (r : CumulativeResult)
    (h : calculateCumulativeCompute aborted flag mOf tags = .ok r) :
    (flag = true → r.uniqueSize ≤ r.totalSize) ∧
    (flag = false → r.uniqueSize = r.totalSize ∧ r.layerDigests = []) := by
  unfold calculateCumulativeCompute at h
  by_cases hab : aborted = true ∧ tags ≠ []
  · rw [if_pos hab] at h
    exact absurd h (by simp)
  · rw [if_neg hab] at h
    cases hf : List.foldlM (cumulativeTask flag mOf) ⟨[], [], 0⟩ tags with
    | error e =>
      rw [hf] at h
      exact absurd h (by simp [Except.map])
    | ok acc =>
      rw [hf] at h
      cases h
      constructor
      · intro hfl
        subst hfl
        simpa using foldlM_cumulative_inv mOf tags ⟨[], [], 0⟩ acc hf
          (by simp [sumValues])
      · intro hfl
        subst hfl
        refine ⟨rfl, ?_⟩
        have := foldlM_false_allLayers mOf tags ⟨[], [], 0⟩ acc hf
        simp [this]

/-- C5 amended witness: the spec's own example (two tags sharing a
500-byte layer, one unique 100-byte layer each) through
`cumulative_uniqueSize_bounds`: 700 ≤ 1200. -/
theorem cumulative_uniqueSize_bounds_witness :
    (CumulativeResult.mk 1200 700 [("1", 600), ("2", 600)]
      ["s", "u1", "u2"]).uniqueSize
      ≤ (CumulativeResult.mk 1200 700 [("1", 600), ("2", 600)]
      ["s", "u1", "u2"]).totalSize := by
  have h := cumulative_uniqueSize_bounds false true
    (fun t => if t = "1"
      then .ok (some ⟨none, some [⟨some "s", some 500⟩, ⟨some "u1", some 100⟩], none⟩)
      else .ok (some ⟨none, some [⟨some "s", some 500⟩, ⟨some "u2", some 100⟩], none⟩))
    ["1", "2"] ⟨1200, 700, [("1", 600), ("2", 600)], ["s", "u1", "u2"]⟩
    (by decide)
  exact h.1 rfl

theorem notMem_append {α : Type} {c : α} {a b : List α}
    (ha : c ∉ a) (hb : c ∉ b) : c ∉ a ++ b := by
  simp [List.mem_append]
  exact ⟨ha, hb⟩

/-- Splitting an equation at the first occurrence of a separator that
appears in neither prefix. -/
theorem append_sep_inj {α : Type} {c : α} :
    ∀ {a b s t : List α}, c ∉ a → c ∉ b → a ++ c :: s = b ++ c :: t →
      a = b ∧ s = t := by
  intro a
  induction a with
  | nil =>
    intro b s t ha hb h
    cases b with
    | nil =>
      rw [List.nil_append, List.nil_append, List.cons.injEq] at h
      exact ⟨rfl, h.2⟩
    | cons y b' =>
      rw [List.nil_append, List.cons_append, List.cons.injEq] at h
      exact absurd (by rw [h.1]; exact List.mem_cons_self y b') hb
  | cons x a' ih =>
    intro b s t ha hb h
    cases b with
    | nil =>
      rw [List.cons_append, List.nil_append, List.cons.injEq] at h
      exact absurd (by rw [← h.1]; exact List.mem_cons_self x a') ha
    | cons y b' =>
      rw [List.cons_append, List.cons_append, List.cons.injEq] at h
      have ha' : c ∉ a' := fun hm => ha (List.mem_cons_of_mem _ hm)
      have hb' : c ∉ b' := fun hm => hb (List.mem_cons_of_mem _ hm)
      obtain ⟨he, hst⟩ := ih ha' hb' h.2
      exact ⟨by rw [h.1, he], hst⟩

theorem mem_joinComma_data {c : Char} :
    ∀ {l : List String}, c ∈ (joinComma l).data →
      c = ',' ∨ ∃ s ∈ l, c ∈ s.data := by
  intro l
  induction l with
  | nil =>
    intro h
    simp [joinComma] at h
  | cons x xs ih =>
    cases xs with
    | nil =>
      intro h
      right
      exact ⟨x, by simp, h⟩
    | cons y r =>
      intro h
      have hsplit : c ∈ x.data ∨ c ∈ ("," : String).data
          ∨ c ∈ (joinComma (y :: r)).data := by
        simpa [joinComma, String.data_append, List.mem_append, or_assoc] using h
      rcases hsplit with h1 | h2 | h3
      · right
        exact ⟨x, by simp, h1⟩
      · left
        simpa using h2
      · rcases ih h3 with hc | ⟨s, hs, hcs⟩
        · left
          exact hc
        · right
          exact ⟨s, List.mem_cons_of_mem x hs, hcs⟩

theorem notMem_joinComma_data {c : Char} {l : List String} (hc : c ≠ ',')
    (h : ∀ s ∈ l, c ∉ s.data) : c ∉ (joinComma l).data := by
  intro hm
  rcases mem_joinComma_data hm with h1 | ⟨s, hs, hcs⟩
  · exact hc h1
  · exact h s hs hcs

theorem joinComma_cons_cons_data (x y : String) (r : List String) :
    (joinComma (x :: y :: r)).data = x.data ++ ',' :: (joinComma (y :: r)).data := by
  show (x ++ "," ++ joinComma (y :: r)).data = _
  simp [String.data_append]

/-- `tags.join(',')` is injective on nonempty lists of comma-free tags. -/
theorem joinComma_inj :
    ∀ (l₁ l₂ : List String), l₁ ≠ [] → l₂ ≠ [] →
      (∀ s ∈ l₁, ',' ∉ s.data) → (∀ s ∈ l₂, ',' ∉ s.data) →
      joinComma l₁ = joinComma l₂ → l₁ = l₂ := by
  intro l₁
  induction l₁ with
  | nil => intro l₂ h1; exact absurd rfl h1
  | cons x xs ih =>
    intro l₂ _ h2 hcf₁ hcf₂ heq
    cases xs with
    | nil =>
      cases l₂ with
      | nil => exact absurd rfl h2
      | cons y ys =>
        cases ys with
        | nil =>
          rw [show joinComma [x] = x from rfl, show joinComma [y] = y from rfl] at heq
          rw [heq]
        | cons y₂ r₂ =>
          exfalso
          have hd := congrArg String.data heq
          rw [show joinComma [x] = x from rfl, joinComma_cons_cons_data] at hd
          have hmem : ',' ∈ x.data := by
            rw [hd]
            exact List.mem_append.mpr (Or.inr (List.mem_cons_self _ _))
          exact hcf₁ x (List.mem_cons_self x []) hmem
    | cons x₂ r₁ =>
      cases l₂ with
      | nil => exact absurd rfl h2
      | cons y ys =>
        cases ys with
        | nil =>
          exfalso
          have hd := congrArg String.data heq
          rw [show joinComma [y] = y from rfl, joinComma_cons_cons_data] at hd
          have hmem : ',' ∈ y.data := by
            rw [← hd]
            exact List.mem_append.mpr (Or.inr (List.mem_cons_self _ _))
          exact hcf₂ y (List.mem_cons_self y []) hmem
        | cons y₂ r₂ =>
          have hd := congrArg String.data heq
          rw [joinComma_cons_cons_data, joinComma_cons_cons_data] at hd
          have hx : ',' ∉ x.data := hcf₁ x (List.mem_cons_self x _)
          have hy : ',' ∉ y.data := hcf₂ y (List.mem_cons_self y _)
          obtain ⟨hxy, hjj⟩ := append_sep_inj hx hy hd
          have hrec := ih (y₂ :: r₂) (by simp) (by simp)
            (fun s hs => hcf₁ s (List.mem_cons_of_mem x hs))
            (fun s hs => hcf₂ s (List.mem_cons_of_mem y hs))
            (String.ext hjj)
          rw [String.ext hxy, hrec]

theorem jsonEscapeChar_eq_self {c : Char} (h1 : c ≠ '"') (h2 : c ≠ '\\') :
    jsonEscapeChar c = [c] := by
  simp [jsonEscapeChar, h1, h2]

theorem flatMap_jsonEscapeChar_eq_self :
    ∀ (l : List Char), '"' ∉ l → '\\' ∉ l → l.flatMap jsonEscapeChar = l := by
  intro l
  induction l with
  | nil => intro _ _; rfl
  | cons c cs ih =>
    intro h1 h2
    rw [List.mem_cons, not_or] at h1 h2
    rw [List.flatMap_cons, jsonEscapeChar_eq_self (Ne.symm h1.1) (Ne.symm h2.1),
      ih h1.2 h2.2]
    rfl

theorem jsonEscape_eq_self {s : String} (h1 : '"' ∉ s.data) (h2 : '\\' ∉ s.data) :
    jsonEscape s = s := by
  obtain ⟨l⟩ := s
  exact String.ext (flatMap_jsonEscapeChar_eq_self l h1 h2)

theorem key_catalog_data :
    (Query.key .catalog).data
      = ("docker-registry:" : String).data ++ (("/api/v2/" : String).data
          ++ ("_catalog" : String).data) := by
  decide

theorem key_tags_data (n : String) :
    (Query.key (.tags n)).data
      = ("docker-registry:" : String).data ++ (("/api/v2/" : String).data
          ++ (n.data ++ ("/tags/list" : String).data)) := by
  simp [Query.key, generateKey, String.data_append]

theorem key_manifest_data (n t : String) :
    (Query.key (.manifest n t)).data
      = ("docker-registry:" : String).data ++ (("/api/v2/" : String).data
          ++ (n.data ++ (("/manifests/" : String).data ++ t.data))) := by
  simp [Query.key, generateKey, String.data_append]

theorem key_cumulative_data (n : String) (ts : List String) (b : Bool) :
    (Query.key (.cumulative n ts b)).data
      = ("docker-registry:" : String).data ++ (("/api/v2/" : String).data
          ++ (n.data ++ (("/cumulative-size" : String).data
          ++ ((":" : String).data ++ (("\x7b\"tags\":\"" : String).data
          ++ ((jsonEscape (joinComma ts)).data
          ++ (("\",\"accountForSharedLayers\":" : String).data
          ++ ((if b then ("true" : String) else ("false" : String)).data
          ++ ("\x7d" : String).data)))))))) := by
  simp [Query.key, generateKey, jsonStringifyCumulative, String.data_append]

theorem quote_mem_cumulative_tail (nd td bd : List Char) :
    ('"' : Char) ∈ nd ++ (("/cumulative-size" : String).data
      ++ ((":" : String).data ++ (("\x7b\"tags\":\"" : String).data
      ++ (td ++ (("\",\"accountForSharedLayers\":" : String).data
      ++ (bd ++ ("\x7d" : String).data)))))) := by
  have hq : ('"' : Char) ∈ ("\x7b\"tags\":\"" : String).data := by decide
  simp only [List.mem_append]
  tauto

/-- Regrouping the cumulative key tail at its first quote. -/
theorem cumulative_tail_regroup (nd X : List Char) :
    nd ++ (("/cumulative-size" : String).data ++ ((":" : String).data
        ++ (("\x7b\"tags\":\"" : String).data ++ X)))
      = (nd ++ ("/cumulative-size:\x7b" : String).data)
          ++ '"' :: (("tags\":\"" : String).data ++ X) := by
  have hcat : ("/cumulative-size" : String).data ++ (":" : String).data
      ++ ("\x7b\"tags\":\"" : String).data
      = ("/cumulative-size:\x7b" : String).data
          ++ '"' :: ("tags\":\"" : String).data := by
    decide
  calc nd ++ (("/cumulative-size" : String).data ++ ((":" : String).data
        ++ (("\x7b\"tags\":\"" : String).data ++ X)))
      = (nd ++ (("/cumulative-size" : String).data ++ (":" : String).data
          ++ ("\x7b\"tags\":\"" : String).data)) ++ X := by
        simp [List.append_assoc]
    _ = (nd ++ (("/cumulative-size:\x7b" : String).data
          ++ '"' :: ("tags\":\"" : String).data)) ++ X := by rw [hcat]
    _ = (nd ++ ("/cumulative-size:\x7b" : String).data)
          ++ '"' :: (("tags\":\"" : String).data ++ X) := by
        simp [List.append_assoc]

/-- Regrouping the part after the tag string at its closing quote. -/
theorem cumulative_mid_regroup (td Z : List Char) :
    td ++ (("\",\"accountForSharedLayers\":" : String).data ++ Z)
      = td ++ '"' :: ((",\"accountForSharedLayers\":" : String).data ++ Z) := by
  have h : ("\",\"accountForSharedLayers\":" : String).data
      = '"' :: (",\"accountForSharedLayers\":" : String).data := by decide
  rw [h]
  simp

theorem rev_tags_shape (n : String) :
    (n.data ++ ("/tags/list" : String).data).reverse
      = ("tsil" : String).data
          ++ '/' :: (("sgat" : String).data ++ '/' :: n.data.reverse) := by
  rw [List.reverse_append]
  rw [show ("/tags/list" : String).data.reverse
      = ("tsil" : String).data ++ '/' :: (("sgat" : String).data ++ ['/'])
      from by decide]
  simp

theorem rev_manifest_shape (n t : String) :
    (n.data ++ (("/manifests/" : String).data ++ t.data)).reverse
      = t.data.reverse
          ++ '/' :: (("stsefinam" : String).data ++ '/' :: n.data.reverse) := by
  rw [List.reverse_append, List.reverse_append]
  rw [show ("/manifests/" : String).data.reverse
      = '/' :: (("stsefinam" : String).data ++ ['/']) from by decide]
  simp

/-- C9 counterexample: the cumulative-size key joins the tag list with
commas before serializing it into the key, so the two logically different
queries with tag lists `["a,b"]` and `["a","b"]` produce the same cache
key — the derivation is not injective over arbitrary queries. -/
theorem queryKey_join_collision_cex :
    Query.key (.cumulative "img" ["a,b"] true)
      = Query.key (.cumulative "img" ["a", "b"] true) ∧
    Query.cumulative "img" ["a,b"] true ≠ Query.cumulative "img" ["a", "b"] true := by
  constructor
  · decide
  · decide

/-- C9 (amended): key derivation is deterministic (a function of the
query), and over *valid* queries — image names without double quotes,
tags without double quotes, backslashes, slashes or commas (as Docker
syntax guarantees), and nonempty tag lists for cumulative lookups — two
logically different queries never produce the same cache key; without
those restrictions distinct queries can collide (see the counterexample). -/
theorem queryKey_injective_on_valid :
    ∀ q₁ q₂ : Query, q₁.valid → q₂.valid → q₁.key = q₂.key → q₁ = q₂ := by
  have hlen8 : ("_catalog" : String).data.length = 8 := by decide
  have hlen10 : ("/tags/list" : String).data.length = 10 := by decide
  have hlen11 : ("/manifests/" : String).data.length = 11 := by decide
  have htsil : '/' ∉ ("tsil" : String).data := by decide
  have hsg : '/' ∉ ("sgat" : String).data := by decide
  have hst : '/' ∉ ("stsefinam" : String).data := by decide
  intro q₁ q₂ h₁ h₂ heq
  have hd := congrArg String.data heq
  cases q₁ with
  | catalog =>
    cases q₂ with
    | catalog => rfl
    | tags n₂ =>
      exfalso
      rw [key_catalog_data, key_tags_data] at hd
      have E := List.append_cancel_left (List.append_cancel_left hd)
      have hL := congrArg List.length E
      rw [List.length_append, hlen8, hlen10] at hL
      omega
    | manifest n₂ t₂ =>
      exfalso
      rw [key_catalog_data, key_manifest_data] at hd
      have E := List.append_cancel_left (List.append_cancel_left hd)
      have hL := congrArg List.length E
      rw [List.length_append, List.length_append, hlen8, hlen11] at hL
      omega
    | cumulative n₂ ts₂ b₂ =>
      exfalso
      rw [key_catalog_data, key_cumulative_data] at hd
      have E := List.append_cancel_left (List.append_cancel_left hd)
      have hq := quote_mem_cumulative_tail n₂.data
        (jsonEscape (joinComma ts₂)).data
        ((if b₂ then ("true" : String) else ("false" : String)).data)
      rw [← E] at hq
      exact absurd hq (by decide)
  | tags n₁ =>
    cases q₂ with
    | catalog =>
      exfalso
      rw [key_tags_data, key_catalog_data] at hd
      have E := List.append_cancel_left (List.append_cancel_left hd)
      have hL := congrArg List.length E
      rw [List.length_append, hlen8, hlen10] at hL
      omega
    | tags n₂ =>
      rw [key_tags_data, key_tags_data] at hd
      have E := List.append_cancel_left (List.append_cancel_left hd)
      rw [String.ext (List.append_cancel_right E)]
    | manifest n₂ t₂ =>
      exfalso
      rw [key_tags_data, key_manifest_data] at hd
      have E := List.append_cancel_left (List.append_cancel_left hd)
      have ER := congrArg List.reverse E
      rw [rev_tags_shape n₁, rev_manifest_shape n₂ t₂] at ER
      have ht₂ : '/' ∉ t₂.data.reverse := by
        rw [List.mem_reverse]
        exact h₂.2.2.2.1
      obtain ⟨_, hrest⟩ := append_sep_inj htsil ht₂ ER
      obtain ⟨habs, _⟩ := append_sep_inj hsg hst hrest
      exact absurd habs (by decide)
    | cumulative n₂ ts₂ b₂ =>
      exfalso
      rw [key_tags_data, key_cumulative_data] at hd
      have E := List.append_cancel_left (List.append_cancel_left hd)
      have hq := quote_mem_cumulative_tail n₂.data
        (jsonEscape (joinComma ts₂)).data
        ((if b₂ then ("true" : String) else ("false" : String)).data)
      rw [← E] at hq
      rcases List.mem_append.mp hq with hx | hx
      · exact h₁ hx
      · exact absurd hx (by decide)
  | manifest n₁ t₁ =>
    cases q₂ with
    | catalog =>
      exfalso
      rw [key_manifest_data, key_catalog_data] at hd
      have E := List.append_cancel_left (List.append_cancel_left hd)
      have hL := congrArg List.length E
      rw [List.length_append, List.length_append, hlen8, hlen11] at hL
      omega
    | tags n₂ =>
      exfalso
      rw [key_manifest_data, key_tags_data] at hd
      have E := List.append_cancel_left (List.append_cancel_left hd)
      have ER := congrArg List.reverse E
      rw [rev_manifest_shape n₁ t₁, rev_tags_shape n₂] at ER
      have ht₁ : '/' ∉ t₁.data.reverse := by
        rw [List.mem_reverse]
        exact h₁.2.2.2.1
      obtain ⟨_, hrest⟩ := append_sep_inj ht₁ htsil ER
      obtain ⟨habs, _⟩ := append_sep_inj hst hsg hrest
      exact absurd habs (by decide)
    | manifest n₂ t₂ =>
      rw [key_manifest_data, key_manifest_data] at hd
      have E := List.append_cancel_left (List.append_cancel_left hd)
      have ER := congrArg List.reverse E
      rw [rev_manifest_shape n₁ t₁, rev_manifest_shape n₂ t₂] at ER
      have ht₁ : '/' ∉ t₁.data.reverse := by
        rw [List.mem_reverse]
        exact h₁.2.2.2.1
      have ht₂ : '/' ∉ t₂.data.reverse := by
        rw [List.mem_reverse]
        exact h₂.2.2.2.1
      obtain ⟨ht, hrest⟩ := append_sep_inj ht₁ ht₂ ER
      obtain ⟨_, hn⟩ := append_sep_inj hst hst hrest
      have htt : t₁ = t₂ := String.ext (List.reverse_inj.mp ht)
      have hnn : n₁ = n₂ := String.ext (List.reverse_inj.mp hn)
      rw [htt, hnn]
    | cumulative n₂ ts₂ b₂ =>
      exfalso
      rw [key_manifest_data, key_cumulative_data] at hd
      have E := List.append_cancel_left (List.append_cancel_left hd)
      have hq := quote_mem_cumulative_tail n₂.data
        (jsonEscape (joinComma ts₂)).data
        ((if b₂ then ("true" : String) else ("false" : String)).data)
      rw [← E] at hq
      rcases List.mem_append.mp hq with hx | hx
      · exact h₁.1 hx
      · rcases List.mem_append.mp hx with hy | hy
        · exact absurd hy (by decide)
        · exact h₁.2.1 hy
  | cumulative n₁ ts₁ b₁ =>
    cases q₂ with
    | catalog =>
      exfalso
      rw [key_cumulative_data, key_catalog_data] at hd
      have E := List.append_cancel_left (List.append_cancel_left hd)
      have hq := quote_mem_cumulative_tail n₁.data
        (jsonEscape (joinComma ts₁)).data
        ((if b₁ then ("true" : String) else ("false" : String)).data)
      rw [E] at hq
      exact absurd hq (by decide)
    | tags n₂ =>
      exfalso
      rw [key_cumulative_data, key_tags_data] at hd
      have E := List.append_cancel_left (List.append_cancel_left hd)
      have hq := quote_mem_cumulative_tail n₁.data
        (jsonEscape (joinComma ts₁)).data
        ((if b₁ then ("true" : String) else ("false" : String)).data)
      rw [E] at hq
      rcases List.mem_append.mp hq with hx | hx
      · exact h₂ hx
      · exact absurd hx (by decide)
    | manifest n₂ t₂ =>
      exfalso
      rw [key_cumulative_data, key_manifest_data] at hd
      have E := List.append_cancel_left (List.append_cancel_left hd)
      have hq := quote_mem_cumulative_tail n₁.data
        (jsonEscape (joinComma ts₁)).data
        ((if b₁ then ("true" : String) else ("false" : String)).data)
      rw [E] at hq
      rcases List.mem_append.mp hq with hx | hx
      · exact h₂.1 hx
      · rcases List.mem_append.mp hx with hy | hy
        · exact absurd hy (by decide)
        · exact h₂.2.1 hy
    | cumulative n₂ ts₂ b₂ =>
      rw [key_cumulative_data, key_cumulative_data] at hd
      have E := List.append_cancel_left (List.append_cancel_left hd)
      rw [cumulative_tail_regroup n₁.data, cumulative_tail_regroup n₂.data] at E
      have hA₁ : ('"' : Char) ∉ n₁.data ++ ("/cumulative-size:\x7b" : String).data :=
        notMem_append h₁.1 (by decide)
      have hA₂ : ('"' : Char) ∉ n₂.data ++ ("/cumulative-size:\x7b" : String).data :=
        notMem_append h₂.1 (by decide)
      obtain ⟨hpre, hrest⟩ := append_sep_inj hA₁ hA₂ E
      have hnn : n₁ = n₂ := String.ext (List.append_cancel_right hpre)
      have hrest2 := List.append_cancel_left hrest
      rw [cumulative_mid_regroup, cumulative_mid_regroup] at hrest2
      have hesc₁ : jsonEscape (joinComma ts₁) = joinComma ts₁ :=
        jsonEscape_eq_self
          (notMem_joinComma_data (by decide) (fun s hs => (h₁.2.2 s hs).1))
          (notMem_joinComma_data (by decide) (fun s hs => (h₁.2.2 s hs).2.1))
      have hesc₂ : jsonEscape (joinComma ts₂) = joinComma ts₂ :=
        jsonEscape_eq_self
          (notMem_joinComma_data (by decide) (fun s hs => (h₂.2.2 s hs).1))
          (notMem_joinComma_data (by decide) (fun s hs => (h₂.2.2 s hs).2.1))
      have hq₁ : '"' ∉ (jsonEscape (joinComma ts₁)).data := by
        rw [hesc₁]
        exact notMem_joinComma_data (by decide) (fun s hs => (h₁.2.2 s hs).1)
      have hq₂ : '"' ∉ (jsonEscape (joinComma ts₂)).data := by
        rw [hesc₂]
        exact notMem_joinComma_data (by decide) (fun s hs => (h₂.2.2 s hs).1)
      obtain ⟨htd, hbd⟩ := append_sep_inj hq₁ hq₂ hrest2
      have hts : ts₁ = ts₂ := by
        have hjj : jsonEscape (joinComma ts₁) = jsonEscape (joinComma ts₂) :=
          String.ext htd
        rw [hesc₁, hesc₂] at hjj
        exact joinComma_inj ts₁ ts₂ h₁.2.1 h₂.2.1
          (fun s hs => (h₁.2.2 s hs).2.2.2)
          (fun s hs => (h₂.2.2 s hs).2.2.2) hjj
      have hbd2 := List.append_cancel_right (List.append_cancel_left hbd)
      have hb : b₁ = b₂ := by
        cases b₁ <;> cases b₂ <;>
          first
          | rfl
          | exact absurd hbd2 (by decide)
      rw [hnn, hts, hb]

/-- C9 amended witness: `queryKey_injective_on_valid` applied at the
concrete valid cumulative query for repository `img` with tags
`["t1","t2"]`. -/
theorem queryKey_injective_on_valid_witness :
    Query.cumulative "img" ["t1", "t2"] true
      = Query.cumulative "img" ["t1", "t2"] true :=
  have hval : (Query.cumulative "img" ["t1", "t2"] true).valid := by
    refine ⟨?_, by decide, ?_⟩
    · show ('"' : Char) ∉ ("img" : String).data
      decide
    · intro t ht
      rcases List.mem_cons.mp ht with rfl | ht
      · exact ⟨by decide, by decide, by decide, by decide⟩
      · rcases List.mem_singleton.mp ht with rfl
        exact ⟨by decide, by decide, by decide, by decide⟩
  queryKey_injective_on_valid
    (.cumulative "img" ["t1", "t2"] true)
    (.cumulative "img" ["t1", "t2"] true)
    hval hval rfl

end Dcr
